import Mathlib

/-!
Verification of the casper-vdb rust-client protocol layer.

This file gives a shallow embedding, in Lean, of the protocol-handling code of
the client library (`src/client.rs`, `src/error.rs`, `src/models.rs`):

* the binary search-response decoder (`CasperClient::search`, the byte-parsing
  part after the transport returns the body bytes);
* the error taxonomy mapper (`CasperError::from_status` and
  `CasperClient::parse_error_response`);
* the chunked upload planner and stream-message producer inside
  `CasperClient::upload_matrix_grpc`, together with the outcome construction;
* the 404 special case of `CasperClient::get_vector`.

Modelling conventions:

* Rust `u32` and `usize` values are modelled as `Nat`; the code under study
  runs on 64-bit targets where `4 + count * 8` for `count ≤ 2^32 - 1` cannot
  overflow a `usize`, so plain `Nat` arithmetic is faithful.
* Rust `f32` values are modelled by their 32-bit IEEE-754 bit pattern as a
  `Nat < 2^32`: the only operations the client performs on scores are
  `f32::from_le_bytes` and (for the round-trip property) `f32::to_le_bytes`,
  which are mutually inverse bit-level conversions, so the bit pattern is a
  complete model of the value as it travels through this code.
* Byte buffers are `List Nat` whose elements are byte values.
* External collaborators (serde_json parsing, the reqwest transport, the tonic
  gRPC channel) are passed in as explicit parameters: a parse result is an
  `Option`, a transport step is an `Except String` value.
-/

/-- A decoded search record (`SearchResult` in `src/models.rs`): `id : u32`
and `score : f32`, the score represented by its 32-bit pattern. -/
structure SearchResult where
  id : Nat
  score : Nat
  deriving DecidableEq, Repr

/-- The error type (`CasperError` in `src/error.rs`), restricted to the
variants the modelled code paths can produce. -/
inductive CasperError where
  | Server (status : Nat) (message : String)
  | Client (status : Nat) (message : String)
  | InvalidResponse (message : String)
  | CollectionNotFound (message : String)
  | OperationNotAllowed (message : String)
  | IndexAlreadyExists
  | Grpc (message : String)
  | Unknown (message : String)
  deriving DecidableEq, Repr

/-- Little-endian reconstruction of a `u32` from four bytes, as
`u32::from_le_bytes` does. -/
def u32FromLe (b0 b1 b2 b3 : Nat) : Nat :=
  b0 + 256 * b1 + 65536 * b2 + 16777216 * b3

/-- Read a little-endian `u32` from `buf` at byte offset `off`
(`copy_from_slice` of `buf[off..off+4]` followed by `u32::from_le_bytes`
in `src/client.rs`). Out-of-range positions default to `0`; the decoder
only calls this at offsets its length checks have already validated. -/
def readU32LE (buf : List Nat) (off : Nat) : Nat :=
  u32FromLe (buf.getD off 0) (buf.getD (off + 1) 0) (buf.getD (off + 2) 0)
    (buf.getD (off + 3) 0)

/-- The fixed detail string of the header-too-short decode failure
(`src/client.rs`, the `buf.len() < 4` branch of `search`). -/
def tooShortMsg : String := "binary search response too short (missing count)"

/-- The detail string of the truncated-body decode failure
(`src/client.rs`, the `buf.len() < expected_len` branch of `search`). -/
def truncatedMsg (expected actual : Nat) : String :=
  "binary search response truncated: expected at least " ++ toString expected
    ++ " bytes, got " ++ toString actual

/-- The record-reading loop of `CasperClient::search`: starting with the
cursor at `off`, read `n` records, each one a `u32` id followed by an `f32`
score, advancing the cursor by 8 bytes per record. -/
def decodeRecords (buf : List Nat) (off : Nat) : Nat → List SearchResult
  | 0 => []
  | n + 1 =>
    let id := readU32LE buf off
    let score := readU32LE buf (off + 4)
    { id := id, score := score } :: decodeRecords buf (off + 8) n

/-- The binary search-response decoder: the byte-parsing part of
`CasperClient::search` (`src/client.rs` lines 148-189). Wire format:
`count : u32 LE`, then `count` repetitions of `{ id : u32 LE, score : f32 LE }`. -/
def decodeSearchResponse (buf : List Nat) : Except CasperError (List SearchResult) :=
  if buf.length < 4 then
    .error (.InvalidResponse tooShortMsg)
  else
    let count := readU32LE buf 0
    let expected_len := 4 + count * (4 + 4)
    if buf.length < expected_len then
      .error (.InvalidResponse (truncatedMsg expected_len buf.length))
    else
      .ok (decodeRecords buf 4 count)

/-- Little-endian 4-byte encoding of a `u32`, as `u32::to_le_bytes` does. -/
def u32ToLe (n : Nat) : List Nat :=
  [n % 256, n / 256 % 256, n / 65536 % 256, n / 16777216 % 256]

/-- Wire encoding of a single record: `id : u32 LE` then `score : f32 LE`
(the score's bit pattern in little-endian order). Follows the spec's wire
format, section 6; the repository itself only contains the decoder. -/
def encodeRecord (r : SearchResult) : List Nat :=
  u32ToLe r.id ++ u32ToLe r.score

/-- Wire encoding of a whole search response: a `u32 LE` count followed by
each record in order. Follows the spec's wire format, section 6. -/
def encodeSearchResponse (results : List SearchResult) : List Nat :=
  u32ToLe results.length ++ results.flatMap encodeRecord

/-- A minimal model of a parsed `serde_json::Value`, rich enough for the
field lookups `parse_error_response` performs. -/
inductive Json where
  | null
  | bool (b : Bool)
  | num (n : Int)
  | str (s : String)
  | arr (elems : List Json)
  | obj (fields : List (String × Json))
  deriving Repr

/-- `serde_json::Value::get(key)` on the modelled value: field lookup on an
object, `none` on every other shape. -/
def Json.get (j : Json) (key : String) : Option Json :=
  match j with
  | .obj fields => fields.lookup key
  | _ => none

/-- `serde_json::Value::as_str` on the modelled value. -/
def Json.asStr : Json → Option String
  | .str s => some s
  | _ => none

/-- `CasperError::from_status` (`src/error.rs` lines 57-66): classify a
status code, attaching the already-extracted message. -/
def from_status (status : Nat) (message : String) : CasperError :=
  if status = 400 then .Client status message
  else if status = 404 then .CollectionNotFound message
  else if status = 405 then .OperationNotAllowed message
  else if status = 409 then .IndexAlreadyExists
  else if 500 ≤ status ∧ status ≤ 599 then .Server status message
  else .Unknown ("HTTP " ++ toString status ++ ": " ++ message)

/-- `CasperClient::parse_error_response` (`src/client.rs` lines 500-510).
The body text is accompanied by `parsed`, the result of the external
`serde_json::from_str` call on that text (`none` when parsing fails): if the
parsed value holds a string field named `error`, that string becomes the
message, otherwise the raw body text does. -/
def parse_error_response (status : Nat) (parsed : Option Json) (text : String) :
    CasperError :=
  match parsed with
  | some errorJson =>
    match (errorJson.get "error").bind Json.asStr with
    | some message => from_status status message
    | none => from_status status text
  | none => from_status status text

/-- The message `parse_error_response` ends up passing to `from_status`. -/
def errorMessageOf (parsed : Option Json) (text : String) : String :=
  match parsed with
  | some errorJson => ((errorJson.get "error").bind Json.asStr).getD text
  | none => text

/-- The gRPC upload header (`MatrixHeader` from the generated protobuf code,
as filled in by `upload_matrix_grpc`). -/
structure MatrixHeader where
  name : String
  dimension : Nat
  total_chunks : Nat
  max_vectors_per_chunk : Nat
  deriving DecidableEq, Repr

/-- One gRPC data chunk (`MatrixData`): a chunk index and the floats of the
chunk, each float again modelled by its bit pattern or left polymorphic. -/
structure MatrixData (α : Type) where
  chunk_index : Nat
  vector : List α
  deriving DecidableEq, Repr

/-- The tagged stream-message union (`upload_matrix_request::Payload`):
a header or a data chunk. -/
inductive Payload (α : Type) where
  | Header (h : MatrixHeader)
  | Data (d : MatrixData α)
  deriving DecidableEq, Repr

/-- The aggregate response the remote endpoint returns after consuming the
upload stream. -/
structure UploadMatrixResponse where
  total_vectors : Nat
  total_chunks : Nat
  deriving DecidableEq, Repr

/-- `UploadMatrixResult` (`src/models.rs` lines 139-145). -/
structure UploadMatrixResult where
  success : Bool
  message : String
  total_vectors : Nat
  total_chunks : Nat
  deriving DecidableEq, Repr

/-- The upward clamp of `chunk_floats` in `upload_matrix_grpc`
(`src/client.rs` lines 301-305): values below `dimension` are raised to
`dimension`. -/
def clampChunkFloats (chunk_floats dimension : Nat) : Nat :=
  if chunk_floats < dimension then dimension else chunk_floats

/-- `total_chunks = (total_floats + chunk_floats - 1) / chunk_floats`
(`src/client.rs` line 308), on the clamped chunk size. -/
def totalChunks (total_floats chunk_floats : Nat) : Nat :=
  (total_floats + chunk_floats - 1) / chunk_floats

/-- The slice the producer takes for chunk `i` (`src/client.rs` lines
337-339): `start = i * chunk_floats`, `end = min(start + chunk_floats,
total_floats)`, slice `vectors[start..end]`. -/
def chunkSlice {α : Type} (vectors : List α) (chunk_floats i : Nat) : List α :=
  let start := i * chunk_floats
  let stop := min (start + chunk_floats) vectors.length
  (vectors.drop start).take (stop - start)

/-- The full message sequence the spawned producer task of
`upload_matrix_grpc` pushes into the channel (`src/client.rs` lines 319-353),
given the already-clamped `chunk_floats`: the header first, then one data
message per chunk index in increasing order. If the channel closes early the
task stops, so the messages actually delivered are a prefix of this list. -/
def produceMessages {α : Type} (name : String) (dimension : Nat)
    (vectors : List α) (chunk_floats : Nat) : List (Payload α) :=
  let total_floats := vectors.length
  let total_chunks := totalChunks total_floats chunk_floats
  let max_vectors_per_chunk := max (chunk_floats / dimension) 1
  Payload.Header
      { name := name, dimension := dimension, total_chunks := total_chunks,
        max_vectors_per_chunk := max_vectors_per_chunk } ::
    (List.range total_chunks).map (fun chunk_idx =>
      Payload.Data { chunk_index := chunk_idx,
                     vector := chunkSlice vectors chunk_floats chunk_idx })

/-- `CasperClient::upload_matrix_grpc` (`src/client.rs` lines 277-371),
with the two external effects passed in as parameters: `connect` is the
outcome of `MatrixServiceClient::connect` and `streamResponse` the outcome of
awaiting `upload_matrix` on the stream (each an error detail string on
failure). Validation and planning happen before either effect is consulted,
exactly as in the source. -/
def upload_matrix_grpc {α : Type} (matrix_name : String) (dimension : Nat)
    (vectors : List α) (chunk_floats : Nat) (connect : Except String Unit)
    (streamResponse : Except String UploadMatrixResponse) :
    Except CasperError UploadMatrixResult :=
  if dimension = 0 then
    .error (.InvalidResponse "dimension must be greater than 0")
  else if vectors.length % dimension ≠ 0 then
    .error (.InvalidResponse ("vector buffer length " ++ toString vectors.length
      ++ " is not divisible by dimension " ++ toString dimension))
  else
    match connect with
    | .error e => .error (.Grpc e)
    | .ok _ =>
      match streamResponse with
      | .error e => .error (.Grpc e)
      | .ok response =>
        .ok { success := true,
              message := "Successfully uploaded " ++ toString response.total_vectors
                ++ " vectors in " ++ toString response.total_chunks ++ " chunks",
              total_vectors := response.total_vectors,
              total_chunks := response.total_chunks }

/-- The divisibility-failure message of `upload_matrix_grpc`. -/
def divisibilityMsg (len dimension : Nat) : String :=
  "vector buffer length " ++ toString len ++ " is not divisible by dimension "
    ++ toString dimension

/-- `reqwest::StatusCode::is_success`: 2xx statuses. -/
def isSuccessStatus (status : Nat) : Bool :=
  200 ≤ status ∧ status < 300

/-- `GetVectorResponse` (`src/models.rs` lines 123-127), vector entries
modelled by their bit patterns. -/
structure GetVectorResponse where
  id : Nat
  vector : List Nat
  deriving DecidableEq, Repr

/-- `CasperClient::handle_response` (`src/client.rs` lines 470-484)
specialised to `GetVectorResponse`: on a success status, return the external
JSON-decode result `parsedBody` (or an `InvalidResponse` carrying the decode
detail `parseErr` and the body text when it failed); otherwise map the status
and body through `parse_error_response`. `parsedJson` is the external
`serde_json::Value` parse of the text used by the error path. -/
def handle_response (status : Nat) (text : String)
    (parsedBody : Option GetVectorResponse) (parsedJson : Option Json)
    (parseErr : String) : Except CasperError GetVectorResponse :=
  if isSuccessStatus status then
    match parsedBody with
    | some v => .ok v
    | none => .error (.InvalidResponse ("Failed to parse response: " ++ parseErr
        ++ " - " ++ text))
  else
    .error (parse_error_response status parsedJson text)

/-- `CasperClient::get_vector` (`src/client.rs` lines 193-203): a 404 status
short-circuits to `Ok(None)` before `handle_response` runs; every other
response goes through `handle_response`, and a parsed body yields
`Ok(Some(vector))`. -/
def get_vector (status : Nat) (text : String)
    (parsedBody : Option GetVectorResponse) (parsedJson : Option Json)
    (parseErr : String) : Except CasperError (Option (List Nat)) :=
  if status = 404 then
    .ok none
  else
    match handle_response status text parsedBody parsedJson parseErr with
    | .error e => .error e
    | .ok vr => .ok (some vr.vector)

/-- Substring occurrence on character lists: `sub` occurs contiguously
inside `s`. -/
def occursIn (sub s : List Char) : Prop :=
  ∃ t u, s = t ++ sub ++ u

/-- Whether a stream message is the header message. -/
def isHeader {α : Type} : Payload α → Bool
  | .Header _ => true
  | .Data _ => false

/-- The chunk index of a stream message, when it is a data message. -/
def dataIndex {α : Type} : Payload α → Option Nat
  | .Header _ => none
  | .Data d => some d.chunk_index

/-- Reassembling the four little-endian bytes of a `u32` recovers it. -/
lemma u32FromLe_toLe (n : Nat) (h : n < 4294967296) :
    u32FromLe (n % 256) (n / 256 % 256) (n / 65536 % 256) (n / 16777216 % 256) = n := by
  unfold u32FromLe
  omega

/-- Reading a `u32` right after an arbitrary prefix of the buffer recovers
the encoded value. -/
lemma readU32LE_append_toLe (pre rest : List Nat) (n : Nat) (h : n < 4294967296) :
    readU32LE (pre ++ (u32ToLe n ++ rest)) pre.length = n := by
  have hread : ∀ i : Nat, (pre ++ (u32ToLe n ++ rest)).getD (pre.length + i) 0 =
      (u32ToLe n ++ rest).getD i 0 := by
    intro i
    rw [List.getD_append_right pre (u32ToLe n ++ rest) 0 (pre.length + i) (by omega)]
    congr 1
    omega
  have h0 := hread 0
  rw [Nat.add_zero] at h0
  unfold readU32LE
  rw [h0, hread 1, hread 2, hread 3]
  simp only [u32ToLe, List.cons_append, List.getD_cons_zero, List.getD_cons_succ]
  exact u32FromLe_toLe n h

/-- Each encoded record is exactly 8 bytes, so the body of the encoding has
length `8 * count`. -/
lemma length_encodeRecords (rs : List SearchResult) :
    (rs.flatMap encodeRecord).length = 8 * rs.length := by
  induction rs with
  | nil => rfl
  | cons r rs ih =>
    simp only [List.flatMap_cons, List.length_append, ih, List.length_cons]
    simp [encodeRecord, u32ToLe]
    omega

/-- The record-reading loop, run over an encoded record list placed after an
arbitrary prefix, recovers the records. -/
lemma decodeRecords_encode (rs : List SearchResult) (pre : List Nat)
    (hvals : ∀ r ∈ rs, r.id < 4294967296 ∧ r.score < 4294967296) :
    decodeRecords (pre ++ rs.flatMap encodeRecord) pre.length rs.length = rs := by
  induction rs generalizing pre with
  | nil => rfl
  | cons r rs ih =>
    have hid := (hvals r (by simp)).1
    have hsc := (hvals r (by simp)).2
    have hbuf : pre ++ (r :: rs).flatMap encodeRecord =
        pre ++ (u32ToLe r.id ++ (u32ToLe r.score ++ rs.flatMap encodeRecord)) := by
      simp [encodeRecord, List.flatMap_cons, List.append_assoc]
    have hbuf2 : pre ++ (r :: rs).flatMap encodeRecord =
        (pre ++ u32ToLe r.id) ++ (u32ToLe r.score ++ rs.flatMap encodeRecord) := by
      simp [encodeRecord, List.flatMap_cons, List.append_assoc]
    have hbuf3 : pre ++ (r :: rs).flatMap encodeRecord =
        (pre ++ encodeRecord r) ++ rs.flatMap encodeRecord := by
      simp [List.flatMap_cons, List.append_assoc]
    show decodeRecords (pre ++ (r :: rs).flatMap encodeRecord) pre.length (rs.length + 1)
        = r :: rs
    unfold decodeRecords
    have hr1 : readU32LE (pre ++ (r :: rs).flatMap encodeRecord) pre.length = r.id := by
      rw [hbuf]
      exact readU32LE_append_toLe pre _ r.id hid
    have hr2 : readU32LE (pre ++ (r :: rs).flatMap encodeRecord) (pre.length + 4)
        = r.score := by
      rw [hbuf2]
      have hl : (pre ++ u32ToLe r.id).length = pre.length + 4 := by
        simp [u32ToLe]
      rw [← hl]
      exact readU32LE_append_toLe (pre ++ u32ToLe r.id) _ r.score hsc
    have hr3 : decodeRecords (pre ++ (r :: rs).flatMap encodeRecord)
        (pre.length + 8) rs.length = rs := by
      rw [hbuf3]
      have hl : (pre ++ encodeRecord r).length = pre.length + 8 := by
        simp [encodeRecord, u32ToLe]
      rw [← hl]
      exact ih (pre ++ encodeRecord r) (fun s hs => hvals s (List.mem_cons_of_mem r hs))
    simp only [hr1, hr2, hr3]

/-- C1. Decoder round-trip: encoding any sequence of records in the wire
format (little-endian `u32` count, then per record a little-endian `u32` id
and a little-endian IEEE-754 `f32` score) and decoding the resulting buffer
returns `Ok` with exactly the original records in order. -/
theorem decoder_round_trip (results : List SearchResult)
    (hcount : results.length < 4294967296)
    (hvals : ∀ r ∈ results, r.id < 4294967296 ∧ r.score < 4294967296) :
    decodeSearchResponse (encodeSearchResponse results) = .ok results := by
  have hlen : (encodeSearchResponse results).length = 4 + 8 * results.length := by
    rw [encodeSearchResponse, List.length_append, length_encodeRecords]
    simp [u32ToLe]
  have hread : readU32LE (encodeSearchResponse results) 0 = results.length := by
    have h := readU32LE_append_toLe [] (results.flatMap encodeRecord)
      results.length hcount
    simpa [encodeSearchResponse] using h
  have hdec : decodeRecords (encodeSearchResponse results) 4 results.length
      = results := by
    have h := decodeRecords_encode results (u32ToLe results.length) hvals
    have hl : (u32ToLe results.length).length = 4 := by simp [u32ToLe]
    rw [hl] at h
    simpa [encodeSearchResponse] using h
  simp only [decodeSearchResponse, hread, hlen]
  rw [if_neg (by omega), if_neg (by omega), hdec]

/-- C1 witness: round trip of a concrete two-record response. -/
theorem decoder_round_trip_witness :
    decodeSearchResponse (encodeSearchResponse
      [{ id := 7, score := 259 }, { id := 1, score := 1065353216 }]) =
      .ok [{ id := 7, score := 259 }, { id := 1, score := 1065353216 }] :=
  decoder_round_trip [{ id := 7, score := 259 }, { id := 1, score := 1065353216 }]
    (by decide) (by decide)

/-- The record-reading loop reads record `i` at cursor offset `off + 8 * i`:
the id at that offset and the score 4 bytes further. -/
lemma decodeRecords_eq_map (buf : List Nat) (off n : Nat) :
    decodeRecords buf off n = (List.range n).map (fun i =>
      { id := readU32LE buf (off + 8 * i),
        score := readU32LE buf (off + 8 * i + 4) }) := by
  induction n generalizing off with
  | zero => rfl
  | succ n ih =>
    rw [List.range_succ_eq_map]
    simp only [decodeRecords, List.map_cons, List.map_map, ih (off + 8)]
    congr 1
    apply List.map_congr_left
    intro i _
    have h2 : off + 8 * Nat.succ i = off + 8 + 8 * i := by omega
    simp only [Function.comp_apply, h2]

/-- C2. Decoder bounds safety: a buffer shorter than the 4-byte header is
rejected; a buffer whose declared count `N` makes it shorter than
`4 + 8 * N` is rejected (for any `N`, adversarial counts included); and a
buffer of length at least `4 + 8 * N` decodes to exactly `N` records, record
`i` read from offsets `4 + 8 * i` (id) and `4 + 8 * i + 4` (score), so every
read stays inside the length-checked region of the buffer. -/
theorem decoder_bounds_safety (buf : List Nat) :
    (buf.length < 4 →
      decodeSearchResponse buf = .error (.InvalidResponse tooShortMsg)) ∧
    (4 ≤ buf.length → buf.length < 4 + 8 * readU32LE buf 0 →
      decodeSearchResponse buf = .error (.InvalidResponse
        (truncatedMsg (4 + 8 * readU32LE buf 0) buf.length))) ∧
    (4 + 8 * readU32LE buf 0 ≤ buf.length →
      decodeSearchResponse buf = .ok ((List.range (readU32LE buf 0)).map (fun i =>
        { id := readU32LE buf (4 + 8 * i), score := readU32LE buf (4 + 8 * i + 4) }))) := by
  refine ⟨fun h => ?_, fun h4 hlt => ?_, fun hge => ?_⟩
  · simp [decodeSearchResponse, h]
  · have he : readU32LE buf 0 * (4 + 4) = 8 * readU32LE buf 0 := by ring
    simp only [decodeSearchResponse, he]
    rw [if_neg (by omega), if_pos (by omega)]
  · have he : readU32LE buf 0 * (4 + 4) = 8 * readU32LE buf 0 := by ring
    simp only [decodeSearchResponse, he]
    rw [if_neg (by omega), if_neg (by omega), decodeRecords_eq_map]

/-- C2 witness: a 3-byte buffer is rejected; a 4-byte buffer declaring
`count = u32::MAX` is rejected; a well-formed one-record buffer decodes. -/
theorem decoder_bounds_safety_witness :
    decodeSearchResponse [0, 1, 2] = .error (.InvalidResponse tooShortMsg) ∧
    decodeSearchResponse [255, 255, 255, 255] =
      .error (.InvalidResponse (truncatedMsg 34359738364 4)) ∧
    decodeSearchResponse [1, 0, 0, 0, 9, 0, 0, 0, 0, 0, 128, 63] =
      .ok [{ id := 9, score := 1065353216 }] := by
  refine ⟨(decoder_bounds_safety [0, 1, 2]).1 (by decide), ?_, ?_⟩
  · have h := (decoder_bounds_safety [255, 255, 255, 255]).2.1 (by decide) (by decide)
    have e1 : 4 + 8 * readU32LE [255, 255, 255, 255] 0 = 34359738364 := by decide
    rw [e1] at h
    simpa using h
  · have h := (decoder_bounds_safety [1, 0, 0, 0, 9, 0, 0, 0, 0, 0, 128, 63]).2.2
      (by decide)
    rw [h]
    rfl

/-- C3 counterexample: on the empty buffer (shorter than the header) the
decode failure is `InvalidResponse` with a fixed detail string that contains
no digit at all, so it reports neither the expected byte count (4) nor the
actual one (0); the claim that both failure messages report the expected and
actual byte counts is false. -/
theorem decoder_failure_detail_cex :
    decodeSearchResponse [] = .error (.InvalidResponse tooShortMsg) ∧
    ¬ occursIn (toString 4).data tooShortMsg.data ∧
    ¬ occursIn (toString 0).data tooShortMsg.data := by
  refine ⟨rfl, ?_, ?_⟩
  · rintro ⟨t, u, h⟩
    have hmem : '4' ∈ tooShortMsg.data := by
      rw [h]
      simp [List.mem_append]
      exact Or.inr (Or.inl (by decide))
    revert hmem
    decide
  · rintro ⟨t, u, h⟩
    have hmem : '0' ∈ tooShortMsg.data := by
      rw [h]
      simp [List.mem_append]
      exact Or.inr (Or.inl (by decide))
    revert hmem
    decide

/-- C3 amended. The two decode failures are distinct `InvalidResponse`
errors: the truncation failure's detail string reports the expected and the
actual byte counts, while the header-too-short failure carries a fixed
message (with no byte counts in it, see the counterexample). -/
theorem decoder_failure_detail (buf : List Nat) :
    (buf.length < 4 →
      decodeSearchResponse buf = .error (.InvalidResponse tooShortMsg)) ∧
    (4 ≤ buf.length → buf.length < 4 + 8 * readU32LE buf 0 →
      decodeSearchResponse buf = .error (.InvalidResponse
        (truncatedMsg (4 + 8 * readU32LE buf 0) buf.length)) ∧
      occursIn (toString (4 + 8 * readU32LE buf 0)).data
        (truncatedMsg (4 + 8 * readU32LE buf 0) buf.length).data ∧
      occursIn (toString buf.length).data
        (truncatedMsg (4 + 8 * readU32LE buf 0) buf.length).data) ∧
    (∀ expected actual, tooShortMsg ≠ truncatedMsg expected actual) := by
  refine ⟨fun h => ?_, fun h4 hlt => ⟨?_, ?_, ?_⟩, fun expected actual h => ?_⟩
  · simp [decodeSearchResponse, h]
  · have he : readU32LE buf 0 * (4 + 4) = 8 * readU32LE buf 0 := by ring
    simp only [decodeSearchResponse, he]
    rw [if_neg (by omega), if_pos (by omega)]
  · exact ⟨"binary search response truncated: expected at least ".data,
      (" bytes, got " ++ toString buf.length).data,
      by simp [truncatedMsg, String.data_append, List.append_assoc]⟩
  · exact ⟨("binary search response truncated: expected at least "
        ++ toString (4 + 8 * readU32LE buf 0) ++ " bytes, got ").data, [],
      by simp [truncatedMsg, String.data_append, List.append_assoc]⟩
  · have hlen := congrArg String.length h
    have h1 : tooShortMsg.length = 48 := rfl
    have h2 : "binary search response truncated: expected at least ".length = 52 := rfl
    have h3 : " bytes, got ".length = 12 := rfl
    rw [truncatedMsg, h1, String.length_append, String.length_append,
      String.length_append, h2, h3] at hlen
    omega

/-- C3 witness: the concrete shapes of both failures and their distinctness
on a 3-byte buffer and a 4-byte buffer declaring two records. -/
theorem decoder_failure_detail_witness :
    decodeSearchResponse [7] = .error (.InvalidResponse tooShortMsg) ∧
    decodeSearchResponse [2, 0, 0, 0] =
      .error (.InvalidResponse (truncatedMsg 20 4)) ∧
    tooShortMsg ≠ truncatedMsg 20 4 := by
  refine ⟨(decoder_failure_detail [7]).1 (by decide), ?_,
    (decoder_failure_detail [7]).2.2 20 4⟩
  have h := ((decoder_failure_detail [2, 0, 0, 0]).2.1 (by decide) (by decide)).1
  have e1 : 4 + 8 * readU32LE [2, 0, 0, 0] 0 = 20 := by decide
  rw [e1] at h
  simpa using h

/-- The error-response parser always classifies through `from_status`, with
the message taken from the JSON `error` field when present and the raw body
text otherwise. -/
lemma parse_error_response_eq (status : Nat) (parsed : Option Json) (text : String) :
    parse_error_response status parsed text =
      from_status status (errorMessageOf parsed text) := by
  cases parsed with
  | none => rfl
  | some j =>
    simp only [parse_error_response, errorMessageOf]
    cases h : (j.get "error").bind Json.asStr <;> simp [h]

/-- C4. Error taxonomy mapper: every (status, body) pair yields exactly one
error; the message is the JSON `error` field when the body parses to an
object holding one and the raw body text otherwise; 400 maps to a client
error, 404 to not-found, 405 to operation-not-allowed (all carrying the
message), 409 to the fixed conflict error with the message discarded,
500-599 to a server error carrying status and message, and every other
status to an unknown error formatted as "HTTP status: message". -/
theorem error_taxonomy (status : Nat) (parsed : Option Json) (text : String) :
    (parse_error_response status parsed text =
      from_status status (errorMessageOf parsed text)) ∧
    (status = 400 → parse_error_response status parsed text =
      .Client 400 (errorMessageOf parsed text)) ∧
    (status = 404 → parse_error_response status parsed text =
      .CollectionNotFound (errorMessageOf parsed text)) ∧
    (status = 405 → parse_error_response status parsed text =
      .OperationNotAllowed (errorMessageOf parsed text)) ∧
    (status = 409 → parse_error_response status parsed text =
      .IndexAlreadyExists) ∧
    (500 ≤ status → status ≤ 599 → parse_error_response status parsed text =
      .Server status (errorMessageOf parsed text)) ∧
    (status ≠ 400 → status ≠ 404 → status ≠ 405 → status ≠ 409 →
      ¬ (500 ≤ status ∧ status ≤ 599) →
      parse_error_response status parsed text =
        .Unknown ("HTTP " ++ toString status ++ ": " ++ errorMessageOf parsed text)) := by
  have hmsg := parse_error_response_eq status parsed text
  refine ⟨hmsg, fun h => ?_, fun h => ?_, fun h => ?_, fun h => ?_,
    fun h5 h6 => ?_, fun n1 n2 n3 n4 n5 => ?_⟩
  · rw [hmsg, h]; rfl
  · rw [hmsg, h]; rfl
  · rw [hmsg, h]; rfl
  · rw [hmsg, h]; rfl
  · rw [hmsg, from_status]
    rw [if_neg (by omega), if_neg (by omega), if_neg (by omega),
      if_neg (by omega), if_pos ⟨h5, h6⟩]
  · rw [hmsg, from_status]
    rw [if_neg n1, if_neg n2, if_neg n3, if_neg n4, if_neg n5]

/-- C4 witness: the classification at concrete statuses, with a JSON body
carrying an `error` field for 400 and 409 and opaque text otherwise. -/
theorem error_taxonomy_witness :
    parse_error_response 400 (some (.obj [("error", .str "boom")])) "raw" =
      .Client 400 "boom" ∧
    parse_error_response 404 none "missing" = .CollectionNotFound "missing" ∧
    parse_error_response 405 none "verb" = .OperationNotAllowed "verb" ∧
    parse_error_response 409 (some (.obj [("error", .str "dup")])) "raw" =
      .IndexAlreadyExists ∧
    parse_error_response 503 none "overload" = .Server 503 "overload" ∧
    parse_error_response 999 none "odd" = .Unknown "HTTP 999: odd" := by
  refine ⟨?_, ?_, ?_, ?_, ?_, ?_⟩
  · exact (error_taxonomy 400 (some (.obj [("error", .str "boom")])) "raw").2.1 rfl
  · exact (error_taxonomy 404 none "missing").2.2.1 rfl
  · exact (error_taxonomy 405 none "verb").2.2.2.1 rfl
  · exact (error_taxonomy 409 (some (.obj [("error", .str "dup")])) "raw").2.2.2.2.1 rfl
  · exact (error_taxonomy 503 none "overload").2.2.2.2.2.1 (by omega) (by omega)
  · have h := (error_taxonomy 999 none "odd").2.2.2.2.2.2
      (by omega) (by omega) (by omega) (by omega) (by omega)
    simpa using h

/-- Chunk 0 is the first `chunk_floats` elements of the buffer. -/
lemma chunkSlice_zero {α : Type} (v : List α) (cf : Nat) :
    chunkSlice v cf 0 = v.take cf := by
  simp only [chunkSlice, Nat.zero_mul, List.drop_zero, Nat.zero_add, Nat.sub_zero]
  apply List.take_eq_take.mpr
  omega

/-- Chunk `i + 1` of a buffer is chunk `i` of the buffer with the first
`chunk_floats` elements dropped. -/
lemma chunkSlice_succ {α : Type} (v : List α) (cf i : Nat) :
    chunkSlice v cf (i + 1) = chunkSlice (v.drop cf) cf i := by
  simp only [chunkSlice, List.drop_drop, List.length_drop]
  have h1 : (i + 1) * cf = i * cf + cf := by ring
  rw [h1]
  have h2 : cf + i * cf = i * cf + cf := by ring
  rw [h2]
  generalize i * cf = k
  congr 1
  omega

/-- `totalChunks` is the ceiling of `L / cf`: the unique `n` with
`L ≤ n * cf < L + cf`. -/
lemma totalChunks_spec (L cf : Nat) (h : 1 ≤ cf) :
    L ≤ totalChunks L cf * cf ∧ totalChunks L cf * cf < L + cf := by
  have h1 : totalChunks L cf * cf ≤ L + cf - 1 := Nat.div_mul_le_self _ _
  have h2 : L + cf - 1 < cf * (totalChunks L cf + 1) := by
    rw [totalChunks]
    exact Nat.lt_mul_div_succ _ (by omega)
  have h3 : cf * (totalChunks L cf + 1) = totalChunks L cf * cf + cf := by ring
  rw [h3] at h2
  omega

/-- Removing one chunk's worth of buffer removes exactly one chunk from the
plan. -/
lemma totalChunks_succ_drop (L cf n : Nat) (h : 1 ≤ cf)
    (ht : totalChunks L cf = n + 1) :
    totalChunks (L - cf) cf = n := by
  have hs1 := totalChunks_spec L cf h
  have hs2 := totalChunks_spec (L - cf) cf h
  rw [ht] at hs1
  have e1 : (n + 1) * cf = n * cf + cf := by ring
  rw [e1] at hs1
  have hL1 : 1 ≤ L := by
    by_contra hc
    have hL0 : L = 0 := by omega
    rw [hL0, totalChunks, Nat.div_eq_of_lt (by omega)] at ht
    omega
  have hb1 : L - cf ≤ n * cf := by omega
  have hb2 : n * cf < (L - cf) + cf := by omega
  have hmn1 : totalChunks (L - cf) cf * cf < n * cf + cf := by omega
  have hmn2 : n * cf < totalChunks (L - cf) cf * cf + cf := by omega
  have e2 : n * cf + cf = (n + 1) * cf := by ring
  have e3 : totalChunks (L - cf) cf * cf + cf = (totalChunks (L - cf) cf + 1) * cf := by
    ring
  rw [e2] at hmn1
  rw [e3] at hmn2
  have l1 := lt_of_mul_lt_mul_right hmn1 (Nat.zero_le cf)
  have l2 := lt_of_mul_lt_mul_right hmn2 (Nat.zero_le cf)
  omega

/-- Concatenating all planned chunks in index order reconstructs the buffer. -/
lemma flatMap_chunkSlice {α : Type} (cf : Nat) (h : 1 ≤ cf) :
    ∀ (n : Nat) (vectors : List α), totalChunks vectors.length cf = n →
      (List.range n).flatMap (fun i => chunkSlice vectors cf i) = vectors := by
  intro n
  induction n with
  | zero =>
    intro v ht
    have hs := totalChunks_spec v.length cf h
    rw [ht] at hs
    have hv : v.length = 0 := by omega
    rw [List.length_eq_zero.mp hv]
    rfl
  | succ n ih =>
    intro v ht
    rw [List.range_succ_eq_map, List.flatMap_cons, chunkSlice_zero]
    have hmap : (List.map Nat.succ (List.range n)).flatMap
        (fun i => chunkSlice v cf i) =
        (List.range n).flatMap (fun i => chunkSlice (v.drop cf) cf i) := by
      induction List.range n with
      | nil => rfl
      | cons a l ihl =>
        simp only [List.map_cons, List.flatMap_cons, ihl]
        rw [show Nat.succ a = a + 1 from rfl, chunkSlice_succ]
    rw [hmap, ih (v.drop cf) (by
      rw [List.length_drop]
      exact totalChunks_succ_drop v.length cf n h ht)]
    exact List.take_append_drop cf v

/-- C5. Planner chunk coverage: with the effective (clamped) chunk size, the
chunks concatenated in index order reconstruct the buffer; `total_chunks` is
the ceiling of `length / effective chunk_floats` (characterised as the unique
value whose multiple of the chunk size first reaches the length); chunk `i`
is the slice `buffer[i*cf .. min((i+1)*cf, length)]`; and the produced data
messages carry exactly the indices `0 .. total_chunks - 1` in order. -/
theorem planner_chunk_coverage {α : Type} (matrix_name : String)
    (dimension chunk_floats : Nat) (vectors : List α)
    (hdim : 0 < dimension) (hdiv : vectors.length % dimension = 0) :
    ((List.range (totalChunks vectors.length (clampChunkFloats chunk_floats dimension))).flatMap
        (fun i => chunkSlice vectors (clampChunkFloats chunk_floats dimension) i)
      = vectors) ∧
    (vectors.length ≤
        totalChunks vectors.length (clampChunkFloats chunk_floats dimension)
          * clampChunkFloats chunk_floats dimension ∧
      totalChunks vectors.length (clampChunkFloats chunk_floats dimension)
          * clampChunkFloats chunk_floats dimension
        < vectors.length + clampChunkFloats chunk_floats dimension) ∧
    (∀ i, chunkSlice vectors (clampChunkFloats chunk_floats dimension) i =
      (vectors.take (min ((i + 1) * clampChunkFloats chunk_floats dimension)
        vectors.length)).drop (i * clampChunkFloats chunk_floats dimension)) ∧
    ((produceMessages matrix_name dimension vectors
        (clampChunkFloats chunk_floats dimension)).tail =
      (List.range (totalChunks vectors.length (clampChunkFloats chunk_floats dimension))).map
        (fun i => Payload.Data
          ⟨i, chunkSlice vectors (clampChunkFloats chunk_floats dimension) i⟩)) := by
  have hcf : 1 ≤ clampChunkFloats chunk_floats dimension := by
    unfold clampChunkFloats
    split <;> omega
  refine ⟨flatMap_chunkSlice _ hcf _ vectors rfl, totalChunks_spec _ _ hcf,
    fun i => ?_, rfl⟩
  simp only [chunkSlice]
  rw [List.drop_take]
  have e1 : (i + 1) * clampChunkFloats chunk_floats dimension =
      i * clampChunkFloats chunk_floats dimension
        + clampChunkFloats chunk_floats dimension := by
    ring
  rw [e1]

/-- C5 witness: dimension 3, a six-element buffer, requested chunk size 4
(not a multiple of the dimension): two chunks `[10,20,30,40]` and `[50,60]`
reassemble the buffer. -/
theorem planner_chunk_coverage_witness :
    0 < 3 ∧ ([10, 20, 30, 40, 50, 60] : List Nat).length % 3 = 0 ∧
    ((List.range (totalChunks ([10, 20, 30, 40, 50, 60] : List Nat).length
          (clampChunkFloats 4 3))).flatMap
        (fun i => chunkSlice ([10, 20, 30, 40, 50, 60] : List Nat)
          (clampChunkFloats 4 3) i)
      = [10, 20, 30, 40, 50, 60]) ∧
    chunkSlice ([10, 20, 30, 40, 50, 60] : List Nat) (clampChunkFloats 4 3) 1
      = [50, 60] :=
  ⟨by decide, by decide,
    (planner_chunk_coverage "m" 3 4 [10, 20, 30, 40, 50, 60]
      (by decide) (by decide)).1, by decide⟩

/-- C6. Planner validation: a zero dimension is rejected with an invalid-
configuration error, and a buffer whose length is not divisible by the
dimension is rejected with an error whose message contains both numbers — in
both cases for every possible behaviour of the gRPC endpoint, so the
endpoint is never contacted and no default substitution or truncation
occurs. -/
theorem planner_validation {α : Type} (matrix_name : String) (vectors : List α)
    (dimension chunk_floats : Nat) (connect : Except String Unit)
    (resp : Except String UploadMatrixResponse) :
    (upload_matrix_grpc matrix_name 0 vectors chunk_floats connect resp =
      .error (.InvalidResponse "dimension must be greater than 0")) ∧
    (0 < dimension → vectors.length % dimension ≠ 0 →
      upload_matrix_grpc matrix_name dimension vectors chunk_floats connect resp =
        .error (.InvalidResponse (divisibilityMsg vectors.length dimension))) ∧
    occursIn (toString vectors.length).data
      (divisibilityMsg vectors.length dimension).data ∧
    occursIn (toString dimension).data
      (divisibilityMsg vectors.length dimension).data := by
  refine ⟨rfl, fun hdim hdiv => ?_, ?_, ?_⟩
  · unfold upload_matrix_grpc
    rw [if_neg (by omega), if_pos hdiv]
    rfl
  · exact ⟨"vector buffer length ".data,
      (" is not divisible by dimension " ++ toString dimension).data,
      by simp [divisibilityMsg, String.data_append, List.append_assoc]⟩
  · exact ⟨("vector buffer length " ++ toString vectors.length
        ++ " is not divisible by dimension ").data, [],
      by simp [divisibilityMsg, String.data_append, List.append_assoc]⟩

/-- C6 witness: dimension 0, and a 7-element buffer with dimension 3, are
both rejected regardless of the endpoint, the latter with both numbers in
the message. -/
theorem planner_validation_witness :
    (upload_matrix_grpc "m" 0 ([1, 2, 3] : List Nat) 8 (.ok ()) (.ok ⟨1, 1⟩) =
      .error (.InvalidResponse "dimension must be greater than 0")) ∧
    (upload_matrix_grpc "m" 3 ([1, 2, 3, 4, 5, 6, 7] : List Nat) 8 (.ok ())
        (.ok ⟨2, 2⟩) =
      .error (.InvalidResponse
        "vector buffer length 7 is not divisible by dimension 3")) := by
  constructor
  · exact (planner_validation "m" [1, 2, 3] 0 8 (.ok ()) (.ok ⟨1, 1⟩)).1
  · have h := (planner_validation "m" ([1, 2, 3, 4, 5, 6, 7] : List Nat) 3 8
      (.ok ()) (.ok ⟨2, 2⟩)).2.1 (by decide) (by decide)
    simpa [divisibilityMsg] using h

/-- C7. Chunk-size clamping and capacity hint: a requested `chunk_floats`
below the dimension is silently raised to the dimension (and one at or above
it is kept); the emitted header's `max_vectors_per_chunk` is
`max(1, clamped chunk_floats / dimension)` with integer division; and the
call's outcome never depends on the requested `chunk_floats`, so no request
is ever rejected for a small chunk size. -/
theorem chunk_clamping {α : Type} (matrix_name : String)
    (dimension chunk_floats : Nat) (vectors : List α) (hdim : 0 < dimension) :
    (chunk_floats < dimension →
      clampChunkFloats chunk_floats dimension = dimension) ∧
    (dimension ≤ chunk_floats →
      clampChunkFloats chunk_floats dimension = chunk_floats) ∧
    ((produceMessages matrix_name dimension vectors
        (clampChunkFloats chunk_floats dimension)).head? =
      some (Payload.Header
        ⟨matrix_name, dimension,
          totalChunks vectors.length (clampChunkFloats chunk_floats dimension),
          max (clampChunkFloats chunk_floats dimension / dimension) 1⟩)) ∧
    (∀ other_chunk_floats connect resp,
      upload_matrix_grpc matrix_name dimension vectors chunk_floats connect resp =
        upload_matrix_grpc matrix_name dimension vectors other_chunk_floats
          connect resp) := by
  refine ⟨fun h => if_pos h, fun h => if_neg (by omega), rfl,
    fun other_chunk_floats connect resp => rfl⟩

/-- C7 witness: dimension 3, a six-float buffer, requested `chunk_floats = 1`:
the clamp raises it to 3, the plan has two chunks of three floats each, and
the header reports `max_vectors_per_chunk = 1`. -/
theorem chunk_clamping_witness :
    clampChunkFloats 1 3 = 3 ∧
    totalChunks ([10, 20, 30, 40, 50, 60] : List Nat).length
      (clampChunkFloats 1 3) = 2 ∧
    ((produceMessages "m" 3 ([10, 20, 30, 40, 50, 60] : List Nat)
        (clampChunkFloats 1 3)).head? =
      some (Payload.Header ⟨"m", 3, 2, 1⟩)) ∧
    (produceMessages "m" 3 ([10, 20, 30, 40, 50, 60] : List Nat)
        (clampChunkFloats 1 3)).tail =
      [Payload.Data ⟨0, [10, 20, 30]⟩, Payload.Data ⟨1, [40, 50, 60]⟩] := by
  refine ⟨(chunk_clamping "m" 3 1 ([10, 20, 30, 40, 50, 60] : List Nat)
    (by decide)).1 (by decide), by decide, ?_, by decide⟩
  have h := (chunk_clamping "m" 3 1 ([10, 20, 30, 40, 50, 60] : List Nat)
    (by decide)).2.2.1
  simpa using h

/-- A list of data messages contains no header. -/
lemma countP_isHeader_map {α : Type} (l : List Nat) (g : Nat → MatrixData α) :
    (l.map (fun i => Payload.Data (g i))).countP isHeader = 0 := by
  induction l with
  | nil => rfl
  | cons a l ih => simp [List.countP_cons, ih, isHeader]

/-- The chunk indices of a list of data messages built over `l` are `l`
itself. -/
lemma filterMap_dataIndex_map {α : Type} (l : List Nat) (g : Nat → MatrixData α)
    (hg : ∀ i, (g i).chunk_index = i) :
    (l.map (fun i => Payload.Data (g i))).filterMap dataIndex = l := by
  induction l with
  | nil => rfl
  | cons a l ih => simp [dataIndex, ih, hg]

/-- The producer's message list, written as an explicit cons: the header
first, then the data messages over `range total_chunks`. -/
lemma produceMessages_eq {α : Type} (name : String) (dimension cf : Nat)
    (vectors : List α) :
    produceMessages name dimension vectors cf =
      Payload.Header ⟨name, dimension, totalChunks vectors.length cf,
          max (cf / dimension) 1⟩ ::
        (List.range (totalChunks vectors.length cf)).map
          (fun i => Payload.Data ⟨i, chunkSlice vectors cf i⟩) := rfl

/-- C8. Stream message ordering: the producer's sequence contains exactly one
header message, it comes first, every later message is a data message whose
chunk indices are exactly `0 .. total_chunks - 1` in strictly increasing
order; and every prefix of the sequence (what is delivered if the channel
closes early) has at most one header and an initial segment of those
indices. -/
theorem stream_message_ordering {α : Type} (matrix_name : String)
    (dimension chunk_floats : Nat) (vectors : List α)
    (hdim : 0 < dimension) (hdiv : vectors.length % dimension = 0) :
    ((produceMessages matrix_name dimension vectors
        (clampChunkFloats chunk_floats dimension)).countP isHeader = 1) ∧
    ((produceMessages matrix_name dimension vectors
        (clampChunkFloats chunk_floats dimension)).head? =
      some (Payload.Header ⟨matrix_name, dimension,
        totalChunks vectors.length (clampChunkFloats chunk_floats dimension),
        max (clampChunkFloats chunk_floats dimension / dimension) 1⟩)) ∧
    ((produceMessages matrix_name dimension vectors
        (clampChunkFloats chunk_floats dimension)).filterMap dataIndex =
      List.range (totalChunks vectors.length
        (clampChunkFloats chunk_floats dimension))) ∧
    List.Pairwise (fun a b => a < b)
      ((produceMessages matrix_name dimension vectors
        (clampChunkFloats chunk_floats dimension)).filterMap dataIndex) ∧
    (∀ k, ((produceMessages matrix_name dimension vectors
        (clampChunkFloats chunk_floats dimension)).take k).countP isHeader ≤ 1) ∧
    (∀ k, ((produceMessages matrix_name dimension vectors
        (clampChunkFloats chunk_floats dimension)).take (k + 1)).filterMap dataIndex =
      List.range (min k (totalChunks vectors.length
        (clampChunkFloats chunk_floats dimension)))) := by
  rw [produceMessages_eq]
  have hzero := countP_isHeader_map (α := α)
    (List.range (totalChunks vectors.length (clampChunkFloats chunk_floats dimension)))
    (fun i => ⟨i, chunkSlice vectors (clampChunkFloats chunk_floats dimension) i⟩)
  have hidx := filterMap_dataIndex_map (α := α)
    (List.range (totalChunks vectors.length (clampChunkFloats chunk_floats dimension)))
    (fun i => ⟨i, chunkSlice vectors (clampChunkFloats chunk_floats dimension) i⟩)
    (fun i => rfl)
  refine ⟨?_, rfl, ?_, ?_, fun k => ?_, fun k => ?_⟩
  · rw [List.countP_cons, hzero]
    rfl
  · simp only [List.filterMap_cons, dataIndex]
    exact hidx
  · simp only [List.filterMap_cons, dataIndex, hidx]
    exact List.pairwise_lt_range _
  · cases k with
    | zero => simp
    | succ k =>
      rw [List.take_succ_cons, List.countP_cons, ← List.map_take]
      rw [countP_isHeader_map ((List.range (totalChunks vectors.length
          (clampChunkFloats chunk_floats dimension))).take k)
        (fun i => ⟨i, chunkSlice vectors (clampChunkFloats chunk_floats dimension) i⟩)]
      simp [isHeader]
  · rw [List.take_succ_cons]
    simp only [List.filterMap_cons, dataIndex]
    rw [← List.map_take,
      filterMap_dataIndex_map _ _ (fun i => rfl), List.take_range]

/-- C8 witness: the concrete message sequence for dimension 3, six floats,
requested chunk size 1: one header, then data indices exactly `[0, 1]`, and
the two-message prefix carries only index 0. -/
theorem stream_message_ordering_witness :
    ((produceMessages "m" 3 ([10, 20, 30, 40, 50, 60] : List Nat)
      (clampChunkFloats 1 3)).countP isHeader = 1) ∧
    ((produceMessages "m" 3 ([10, 20, 30, 40, 50, 60] : List Nat)
      (clampChunkFloats 1 3)).filterMap dataIndex = [0, 1]) ∧
    (((produceMessages "m" 3 ([10, 20, 30, 40, 50, 60] : List Nat)
      (clampChunkFloats 1 3)).take 2).filterMap dataIndex = [0]) := by
  have h := stream_message_ordering "m" 3 1 ([10, 20, 30, 40, 50, 60] : List Nat)
    (by decide) (by decide)
  exact ⟨h.1, h.2.2.1.trans (by rfl), (h.2.2.2.2.2 1).trans (by rfl)⟩

/-- C9. Upload outcome construction: whenever `upload_matrix_grpc` returns
`Ok`, the outcome has `success = true`, its totals are the endpoint's
aggregate-response totals, and the message interpolates those two counts;
a connection failure or a streaming/response failure each yield exactly one
`Grpc` domain error and no outcome. -/
theorem upload_outcome {α : Type} (matrix_name : String) (dimension : Nat)
    (vectors : List α) (chunk_floats : Nat) (connect : Except String Unit)
    (streamResponse : Except String UploadMatrixResponse)
    (hdim : dimension ≠ 0) (hdiv : vectors.length % dimension = 0) :
    (∀ result, upload_matrix_grpc matrix_name dimension vectors chunk_floats
        connect streamResponse = .ok result →
      ∃ r, streamResponse = .ok r ∧ result.success = true ∧
        result.total_vectors = r.total_vectors ∧
        result.total_chunks = r.total_chunks ∧
        result.message = "Successfully uploaded " ++ toString r.total_vectors
          ++ " vectors in " ++ toString r.total_chunks ++ " chunks") ∧
    (∀ r, connect = .ok () → streamResponse = .ok r →
      upload_matrix_grpc matrix_name dimension vectors chunk_floats
          connect streamResponse =
        .ok ⟨true, "Successfully uploaded " ++ toString r.total_vectors
          ++ " vectors in " ++ toString r.total_chunks ++ " chunks",
          r.total_vectors, r.total_chunks⟩) ∧
    (∀ e, connect = .error e →
      upload_matrix_grpc matrix_name dimension vectors chunk_floats
        connect streamResponse = .error (.Grpc e)) ∧
    (∀ e, connect = .ok () → streamResponse = .error e →
      upload_matrix_grpc matrix_name dimension vectors chunk_floats
        connect streamResponse = .error (.Grpc e)) := by
  have hstep : ∀ (c : Except String Unit)
      (s : Except String UploadMatrixResponse),
      upload_matrix_grpc matrix_name dimension vectors chunk_floats c s =
        match c with
        | .error e => .error (.Grpc e)
        | .ok _ =>
          match s with
          | .error e => .error (.Grpc e)
          | .ok response =>
            .ok ⟨true, "Successfully uploaded " ++ toString response.total_vectors
              ++ " vectors in " ++ toString response.total_chunks ++ " chunks",
              response.total_vectors, response.total_chunks⟩ := by
    intro c s
    unfold upload_matrix_grpc
    rw [if_neg hdim, if_neg (by omega)]
  refine ⟨fun result hres => ?_, fun r hc hs => ?_, fun e hc => ?_,
    fun e hc hs => ?_⟩
  · rw [hstep] at hres
    cases connect with
    | error e => exact absurd hres (by simp)
    | ok u =>
      cases streamResponse with
      | error e => exact absurd hres (by simp)
      | ok r =>
        refine ⟨r, rfl, ?_, ?_, ?_, ?_⟩ <;>
          simp only [Except.ok.injEq] at hres <;> rw [← hres]
  · rw [hstep, hc, hs]
  · rw [hstep, hc]
  · rw [hstep, hc, hs]

/-- C9 witness: a successful upload of two vectors in two chunks, a failed
connection, and a failed stream response. -/
theorem upload_outcome_witness :
    upload_matrix_grpc "m" 3 ([10, 20, 30, 40, 50, 60] : List Nat) 1 (.ok ())
        (.ok ⟨2, 2⟩) =
      .ok ⟨true, "Successfully uploaded 2 vectors in 2 chunks", 2, 2⟩ ∧
    upload_matrix_grpc "m" 3 ([10, 20, 30, 40, 50, 60] : List Nat) 1
        (.error "refused") (.ok ⟨2, 2⟩) = .error (.Grpc "refused") ∧
    upload_matrix_grpc "m" 3 ([10, 20, 30, 40, 50, 60] : List Nat) 1 (.ok ())
        (.error "reset") = .error (.Grpc "reset") := by
  refine ⟨?_, ?_, ?_⟩
  · have h := (upload_outcome "m" 3 ([10, 20, 30, 40, 50, 60] : List Nat) 1
      (.ok ()) (.ok ⟨2, 2⟩) (by decide) (by decide)).2.1 ⟨2, 2⟩ rfl rfl
    simpa using h
  · exact (upload_outcome "m" 3 ([10, 20, 30, 40, 50, 60] : List Nat) 1
      (.error "refused") (.ok ⟨2, 2⟩) (by decide) (by decide)).2.2.1 "refused" rfl
  · exact (upload_outcome "m" 3 ([10, 20, 30, 40, 50, 60] : List Nat) 1
      (.ok ()) (.error "reset") (by decide) (by decide)).2.2.2 "reset" rfl rfl

/-- C10. The 404 special case of `get_vector`: a 404 status returns
`Ok(None)` and never any error (so the status is not routed through the
error taxonomy, which at 404 would produce the not-found error shown in the
last conjunct); every other non-success status is mapped through
`parse_error_response` as usual. -/
theorem get_vector_404 (status : Nat) (text : String)
    (parsedBody : Option GetVectorResponse) (parsedJson : Option Json)
    (parseErr : String) :
    (status = 404 →
      get_vector status text parsedBody parsedJson parseErr = .ok none ∧
      ∀ e, get_vector status text parsedBody parsedJson parseErr ≠ .error e) ∧
    (status ≠ 404 → isSuccessStatus status = false →
      get_vector status text parsedBody parsedJson parseErr =
        .error (parse_error_response status parsedJson text)) ∧
    (parse_error_response 404 parsedJson text =
      .CollectionNotFound (errorMessageOf parsedJson text)) := by
  refine ⟨fun h => ⟨?_, ?_⟩, fun hne hns => ?_, ?_⟩
  · unfold get_vector
    rw [if_pos h]
  · intro e
    unfold get_vector
    rw [if_pos h]
    exact fun hc => Except.noConfusion hc
  · unfold get_vector
    rw [if_neg hne]
    unfold handle_response
    rw [if_neg (by simp [hns])]
  · rw [parse_error_response_eq]
    rfl

/-- C10 witness: a 404 yields `Ok(None)`; a 500 with an opaque body is
mapped through the taxonomy to a server error. -/
theorem get_vector_404_witness :
    get_vector 404 "ignored" none none "" = .ok none ∧
    get_vector 500 "oops" none none "" = .error (.Server 500 "oops") := by
  constructor
  · exact ((get_vector_404 404 "ignored" none none "").1 rfl).1
  · have h := (get_vector_404 500 "oops" none none "").2.1 (by omega) (by decide)
    simpa using h
